import Mathlib

/-!
Verification of the MindSpore arithmetic-simplification peephole passes
(`optimizer/irpass/arithmetic_simplify.cc`) against their specification.

The IR is shallowly embedded: nodes are trees carrying an identity tag
(a `Nat`, standing for the pointer identity of the C++ `AnfNodePtr`),
calls carry their ordered input list (input 0 is the operator node) and
an optional owning sub-graph (`func_graph()`, `none` when detached).
Freshly allocated nodes are stamped with ids drawn from a caller-supplied
counter, so identity preservation versus fresh construction is visible in
the statements.

The pattern-matching helpers (`PConstant`, `PPrimitive`, `MATCH_REPLACE`,
`AnfVisitor::Match`) and the graph primitives (`NewCNode`, `node_users`,
`SetEdge`) live outside the translated source file; they are modelled
from the specification, as noted on each definition.
-/

namespace MindSporeSimplify

/-- Named built-in primitives used by the two passes. -/
inductive Prim where
  | TensorAdd
  | ScalarAdd
  | Mul
  | ScalarMul
  | Identity
  | Momentum
  | ZerosLike
  | Pow
  | MakeTuple
  | AddN
  | AllReduce
deriving DecidableEq, Repr

/-- Modelled from the spec: an embedded literal, optionally scalar-typed,
with a tensor shape so that constant folding can fail on shape mismatch. -/
structure Lit where
  val : Int
  isScalar : Bool
  shape : List Nat
deriving DecidableEq, Repr

/-- The value held by a value node: a literal constant or a primitive
reference. -/
inductive Val where
  | lit : Lit → Val
  | prim : Prim → Val
deriving DecidableEq, Repr

/-- An IR node. The first `Nat` of each constructor is the node's identity
(pointer identity in the source). A `cnode` carries its ordered inputs
(input 0 is the operator node) and its owning sub-graph (`none` when the
node is detached). -/
inductive AnfNode where
  | cnode : Nat → List AnfNode → Option Nat → AnfNode
  | vnode : Nat → Val → AnfNode
  | param : Nat → AnfNode

namespace AnfNode

/-- The input list of a call node (empty for non-calls). -/
def inputs : AnfNode → List AnfNode
  | .cnode _ ins _ => ins
  | _ => []

/-- The owning sub-graph (`func_graph()` in the source; `none` when
detached or not a call). -/
def fgOf : AnfNode → Option Nat
  | .cnode _ _ fg => fg
  | _ => none

/-- The identity tag of a node. -/
def nid : AnfNode → Nat
  | .cnode i _ _ => i
  | .vnode i _ => i
  | .param i => i

def isCNode : AnfNode → Bool
  | .cnode _ _ _ => true
  | _ => false

/-- `IsVNode` from the source: the node is a value node. -/
def isVNode : AnfNode → Bool
  | .vnode _ _ => true
  | _ => false

/-- The embedded literal of a constant value node, if any. -/
def litOf : AnfNode → Option Lit
  | .vnode _ (.lit l) => some l
  | _ => none

end AnfNode

/-- Whether a node is the value node of the given primitive. -/
def isPrimNode (p : Prim) (n : AnfNode) : Bool :=
  match n with
  | .vnode _ (.prim q) => if q = p then true else false
  | _ => false

/-- `IsPrimitiveCNode(node, prim)`: a call node whose operator (input 0)
is the given primitive's value node. -/
def isPrimitiveCNode (p : Prim) (n : AnfNode) : Bool :=
  match n with
  | .cnode _ (op :: _) _ => isPrimNode p op
  | _ => false

/-- Modelled from the spec: the constant matcher `PConstant(node, false, v)`
without the scalar restriction accepts any value node whose literal equals
`v`. -/
def isConstVal (v : Int) (n : AnfNode) : Bool :=
  match n.litOf with
  | some l => if l.val = v then true else false
  | none => false

/-- Modelled from the spec: the scalar-restricted constant matcher
`PConstant(node, false, v, true)` accepts only scalar literals equal to
`v`. -/
def isScalarConstVal (v : Int) (n : AnfNode) : Bool :=
  match n.litOf with
  | some l => if l.val = v ∧ l.isScalar = true then true else false
  | none => false

/-- Modelled from the spec: `fold(literal, literal, mul)` — compile-time
constant multiplication (`PConstant::MulByPatternConst`), returning `none`
when the combination is not representable (shape or kind mismatch). -/
def foldMul (a b : Lit) : Option Lit :=
  if a.isScalar = b.isScalar ∧ a.shape = b.shape then
    some ⟨a.val * b.val, a.isScalar, a.shape⟩
  else
    none

/-- Modelled from the spec: `zero_.NewValue()` — a freshly stamped zero
literal value node. -/
def newZeroValue (fresh : Nat) : AnfNode :=
  .vnode fresh (.lit ⟨0, false, []⟩)

/-! ## Sweep 1 (`ArithmeticSimplify::operator()`), one definition per
`MATCH_REPLACE` line, tried in source order (first match wins). -/

/-- Line 32: `MATCH_REPLACE(node, x + zero_, x)`. The `+` pattern is the
generic tensor-add call with the zero matched in second operand position
only. -/
def ruleAddZero (node : AnfNode) : Option AnfNode :=
  match node with
  | .cnode _ [op, a, b] _ =>
      if isPrimNode .TensorAdd op ∧ isConstVal 0 b then some a else none
  | _ => none

/-- Line 33: `MATCH_REPLACE(node, x + zero_scalar_, x)`. -/
def ruleAddZeroScalar (node : AnfNode) : Option AnfNode :=
  match node with
  | .cnode _ [op, a, b] _ =>
      if isPrimNode .TensorAdd op ∧ isScalarConstVal 0 b then some a else none
  | _ => none

/-- Line 34: `MATCH_REPLACE(node, PPrimitive(kPrimScalarAdd, zero_scalar_, x), x)`. -/
def ruleScalarAddZeroL (node : AnfNode) : Option AnfNode :=
  match node with
  | .cnode _ [op, a, b] _ =>
      if isPrimNode .ScalarAdd op ∧ isScalarConstVal 0 a then some b else none
  | _ => none

/-- Line 35: `MATCH_REPLACE(node, PPrimitive(kPrimScalarAdd, x, zero_scalar_), x)`. -/
def ruleScalarAddZeroR (node : AnfNode) : Option AnfNode :=
  match node with
  | .cnode _ [op, a, b] _ =>
      if isPrimNode .ScalarAdd op ∧ isScalarConstVal 0 b then some a else none
  | _ => none

/-- Line 36: `MATCH_REPLACE_IF(node, x * one_, any_const.WithValueOf(x),
x.CheckFunc(IsVNode, node))`. The guard requires the retained side to be a
value node; modelled from the spec, the replacement
`any_const.WithValueOf(x)` is the retained node `x` itself. -/
def ruleMulOne (node : AnfNode) : Option AnfNode :=
  match node with
  | .cnode _ [op, a, b] _ =>
      if isPrimNode .Mul op ∧ isConstVal 1 b ∧ a.isVNode = true then some a else none
  | _ => none

/-- Line 37: `MATCH_REPLACE(node, PPrimitive(kPrimScalarMul, one_scalar_, x), x)`. -/
def ruleScalarMulOneL (node : AnfNode) : Option AnfNode :=
  match node with
  | .cnode _ [op, a, b] _ =>
      if isPrimNode .ScalarMul op ∧ isScalarConstVal 1 a then some b else none
  | _ => none

/-- Line 38: `MATCH_REPLACE(node, PPrimitive(kPrimScalarMul, x, one_scalar_), x)`. -/
def ruleScalarMulOneR (node : AnfNode) : Option AnfNode :=
  match node with
  | .cnode _ [op, a, b] _ =>
      if isPrimNode .ScalarMul op ∧ isScalarConstVal 1 b then some a else none
  | _ => none

/-- Line 39: `MATCH_REPLACE(node, PPrimitive(kPrimScalarMul, zero_scalar_, x),
zero_.NewValue())`. -/
def ruleScalarMulZeroL (node : AnfNode) (fresh : Nat) : Option AnfNode :=
  match node with
  | .cnode _ [op, a, _b] _ =>
      if isPrimNode .ScalarMul op ∧ isScalarConstVal 0 a then
        some (newZeroValue fresh)
      else none
  | _ => none

/-- Line 40: `MATCH_REPLACE(node, PPrimitive(kPrimScalarMul, x, zero_scalar_),
zero_.NewValue())`. -/
def ruleScalarMulZeroR (node : AnfNode) (fresh : Nat) : Option AnfNode :=
  match node with
  | .cnode _ [op, _a, b] _ =>
      if isPrimNode .ScalarMul op ∧ isScalarConstVal 0 b then
        some (newZeroValue fresh)
      else none
  | _ => none

/-- Line 43: `MATCH_REPLACE(node, PPrimitive(kPrimIdentity, x), x)`. -/
def ruleIdentity (node : AnfNode) : Option AnfNode :=
  match node with
  | .cnode _ [op, a] _ =>
      if isPrimNode .Identity op then some a else none
  | _ => none

/-- Lines 46-55: the `ConstantDuplicateMul` builder rule
`const_ * (const_2 * x)`. On a match, `mul_node` is the outer multiply's
operator node (input 0), reused by identity in every node the builder
constructs. On fold success the folded constant is a fresh value node;
on fold failure a fresh inner multiply call over the two original constant
nodes is synthesized. New nodes are built in `node->func_graph()` (which
may be `none`: this rule sits before the detached-node guard). -/
def ruleConstDup (node : AnfNode) (fresh : Nat) : Option AnfNode :=
  match node with
  | .cnode _ [op, a, .cnode _ib [op2, c, x] _fgb] fg =>
      match a.litOf, c.litOf with
      | some c1, some c2 =>
          if isPrimNode .Mul op ∧ isPrimNode .Mul op2 then
            match foldMul c1 c2 with
            | some l => some (.cnode (fresh+1) [op, x, .vnode fresh (.lit l)] fg)
            | none => some (.cnode (fresh+1) [op, x, .cnode fresh [op, a, c] fg] fg)
          else none
      | _, _ => none
  | _ => none

/-- Lines 62-63: `OptUpdateZeroTensor`:
`Momentum(ZerosLike(x), y, z, xs...) → MakeTuple(z, y)`. Modelled from the
spec: the trailing `xs` matches the remaining operands. The replacement is
a freshly built `MakeTuple` call in the candidate's sub-graph. -/
def ruleMomentum (node : AnfNode) (fresh : Nat) : Option AnfNode :=
  match node with
  | .cnode _ (op :: zl :: y :: z :: _rest) fg =>
      match zl with
      | .cnode _ [zop, _g] _ =>
          if isPrimNode .Momentum op ∧ isPrimNode .ZerosLike zop then
            some (.cnode (fresh+1) [.vnode fresh (.prim .MakeTuple), z, y] fg)
          else none
      | _ => none
  | _ => none

/-- Line 66: `MATCH_REPLACE(node, PPrimitive(kPrimPow, x, one_scalar_), x)`. -/
def rulePowOne (node : AnfNode) : Option AnfNode :=
  match node with
  | .cnode _ [op, a, b] _ =>
      if isPrimNode .Pow op ∧ isScalarConstVal 1 b then some a else none
  | _ => none

/-- First-match-wins combination of two rule outcomes (the fall-through of
consecutive `MATCH_REPLACE` statements). -/
def pick (a b : Option AnfNode) : Option AnfNode :=
  match a with
  | some r => some r
  | none => b

/-- `ArithmeticSimplify::operator()` (lines 22-69): sweep 1, the rules in
source order. The detached-node guard of line 57 sits after the
`ConstantDuplicateMul` rule and before the `Momentum` and `Pow` rules.
`fresh` is the identity allocator for any newly built node. -/
def ArithmeticSimplify (node : AnfNode) (fresh : Nat) : Option AnfNode :=
  pick (ruleAddZero node)
    (pick (ruleAddZeroScalar node)
      (pick (ruleScalarAddZeroL node)
        (pick (ruleScalarAddZeroR node)
          (pick (ruleMulOne node)
            (pick (ruleScalarMulOneL node)
              (pick (ruleScalarMulOneR node)
                (pick (ruleScalarMulZeroL node fresh)
                  (pick (ruleScalarMulZeroR node fresh)
                    (pick (ruleIdentity node)
                      (pick (ruleConstDup node fresh)
                        (if node.fgOf = none then none
                         else pick (ruleMomentum node fresh) (rulePowOne node))))))))))))

/-! ## The AllReduce-Mul-Add reassociation pass (`AdjustAllReduceMulAdd`).

The visitor's mutable fields (`level_`, `is_reduce_match_`, `x_`, `y_`,
`z_`, `tmp_`, `all_reduce_`, `mul_`, `mul_cnode_`, `all_reduce_fg_`)
become an explicit state record threaded through `Visit`. Each
invocation starts from `Reset()`, so the state is built fresh per call.
Node identity comparisons (`node != addn_maketuple`, the `node_users`
lookup key) are pointer comparisons in the source; here they compare the
identity tags, which coincides with pointer equality on graphs whose
nodes carry distinct tags. -/

/-- The visitor state of `AdjustAllReduceMulAdd` (its member fields after
`Reset()` and during `Visit`). -/
structure ARState where
  level : Nat
  is_reduce_match : Bool
  x : Option AnfNode
  y : Option AnfNode
  z : Option AnfNode
  tmp : Option AnfNode
  all_reduce : Option AnfNode
  mul : Option AnfNode
  mul_cnode : Option AnfNode
  all_reduce_fg : Option Nat

/-- `AdjustAllReduceMulAdd::Reset()` (lines 172-180); the fields not
cleared there (`all_reduce_`, `mul_`, `mul_cnode_`) hold no binding at
the start of an invocation either, the visitor being per-invocation
state. -/
def resetState : ARState :=
  ⟨0, false, none, none, none, none, none, none, none, none⟩

/-- The `level_ == 1` body of `AdjustAllReduceMulAdd::Visit`
(lines 156-169): an `AllReduce` call with at least one operand records
its operator node, its first operand as `x`, and its owning sub-graph,
and marks the reduce-mul match; any other node is remembered in `tmp_`
(the candidate for `y`). An `AllReduce` call with no operand records
nothing. -/
def visitL1 (s : ARState) (n : AnfNode) : ARState :=
  if isPrimitiveCNode .AllReduce n then
    match n with
    | .cnode _ (op :: arg1 :: _) fg =>
        { s with all_reduce := some op, x := some arg1,
                 is_reduce_match := true, all_reduce_fg := fg }
    | _ => s
  else
    { s with tmp := some n }

/-- `AdjustAllReduceMulAdd::Visit` (lines 140-170). At level 0 the node
is matched as `Mul(...)`: modelled from the spec, `AnfVisitor::Match`
with no predicate list visits every operand of a matching call (and
nothing otherwise). A successful reduce-mul match records the multiply's
operator node, the multiply itself, and `y := tmp_`; otherwise the node
is recorded as `z`. At level 1 the node is handled by `visitL1`. -/
def Visit (s : ARState) (n : AnfNode) : ARState :=
  if s.level = 0 then
    let s1 := { s with level := 1, is_reduce_match := false }
    let s2 := if isPrimitiveCNode .Mul n then n.inputs.tail.foldl visitL1 s1 else s1
    let s3 := { s2 with level := 0 }
    if s3.is_reduce_match then
      { s3 with mul := n.inputs.head?, mul_cnode := some n, y := s3.tmp }
    else
      { s3 with z := some n }
  else if s.level = 1 then
    visitL1 s n
  else s

/-- Modelled from the spec: `AnfVisitor::Match(kPrimMakeTuple, {IsNode,
IsNode})` applied to the `AddN`'s operand (line 98): the node must be a
`MakeTuple` call with exactly two operands (the `IsNode` predicates hold
of every node); on a match the two operands are visited in order. -/
def matchMakeTupleVisit (s : ARState) (n : AnfNode) : ARState :=
  if isPrimitiveCNode .MakeTuple n ∧ (n.inputs.tail).length = 2 then
    n.inputs.tail.foldl Visit s
  else s

/-- The binding state after the matching phase of
`AdjustAllReduceMulAdd::operator()` (lines 89-98): `Reset()`, the
`AddN`-with-one-operand check, then the `MakeTuple` visit. -/
def adjustMatch (node : AnfNode) : ARState :=
  match node with
  | .cnode _ [op, mt] _ =>
      if isPrimNode .AddN op then matchMakeTupleVisit resetState mt else resetState
  | _ => resetState

/-- An edge replacement requested from the manager:
`SetEdge(consumer, position, new_node)`. -/
abbrev Edge := AnfNode × Nat × AnfNode

/-- The manager's `node_users()` map, keyed by node identity: for a node,
the `(consumer, operand-position)` pairs that reference it. -/
abbrev Manager := List (Nat × List (AnfNode × Nat))

/-- Lookup in the `node_users` map (`users_map.find(...)`, line 126). -/
def mgrUsers (mgr : Manager) (key : Nat) : Option (List (AnfNode × Nat)) :=
  match mgr with
  | [] => none
  | (k, us) :: rest => if k = key then some us else mgrUsers rest key

/-- `AdjustAllReduceMulAdd::ProcessDependEdge` (lines 122-138): every
user of the matched multiply that is a `MakeTuple` call other than the
matched `MakeTuple` is re-pointed, at its recorded operand position, to
`new_node`; the performed `SetEdge` calls are returned in order. -/
def ProcessDependEdge (mgr : Manager) (mul_cnode addn_maketuple new_node : AnfNode) :
    List Edge :=
  match mgrUsers mgr mul_cnode.nid with
  | none => []
  | some users =>
      users.filterMap (fun up =>
        if up.1.nid ≠ addn_maketuple.nid ∧ isPrimitiveCNode .MakeTuple up.1 then
          some (up.1, up.2, new_node)
        else none)

/-- The observable outcome of one invocation of the pass: the returned
replacement node (or `none`) and the edge replacements requested from the
manager. -/
structure AdjustResult where
  repl : Option AnfNode
  edges : List Edge

/-- Step 1 of the graph surgery (lines 106-109): a `z` that is a call
living in a different sub-graph than the `AllReduce`'s is rebuilt, with
the same inputs, inside that sub-graph (`NewCNode(cnode_z->inputs(), fg)`,
stamped with a fresh identity). -/
def rehome (z : AnfNode) (fg : Nat) (fresh : Nat) : AnfNode :=
  if z.isCNode = true ∧ z.fgOf ≠ some fg then .cnode fresh z.inputs (some fg) else z

/-- `AdjustAllReduceMulAdd::operator()` (lines 88-120). After a complete
match (`x`, `y`, `z` and the `AllReduce`'s sub-graph all bound) the new
`MakeTuple`, `AddN`, `AllReduce` and `Mul` calls are built in the
`AllReduce`'s sub-graph, reusing the original operator nodes, the
dependency edges of the matched multiply are repaired, and the new
multiply is returned. Fresh identities are drawn from `fresh` (slot
`fresh` for the re-homed `z`, then the four calls in build order).
Any incomplete match returns nothing and requests nothing. -/
def AdjustAllReduceMulAdd (mgr : Manager) (node : AnfNode) (fresh : Nat) : AdjustResult :=
  match node with
  | .cnode _ [addn_op, mt] _ =>
      if isPrimNode .AddN addn_op then
        let s := matchMakeTupleVisit resetState mt
        match s.x, s.y, s.z, s.all_reduce_fg with
        | some x, some y, some z, some fg =>
            let z1 := rehome z fg fresh
            let make_tuple_op_node := mt.inputs.headD (.param 0)
            let tuple := AnfNode.cnode (fresh+1) [make_tuple_op_node, z1, x] (some fg)
            let add := AnfNode.cnode (fresh+2) [addn_op, tuple] (some fg)
            let all_reduce := AnfNode.cnode (fresh+3) [s.all_reduce.getD (.param 0), add] (some fg)
            let mul := AnfNode.cnode (fresh+4) [s.mul.getD (.param 0), all_reduce, y] (some fg)
            let edges := ProcessDependEdge mgr (s.mul_cnode.getD (.param 0)) mt all_reduce
            ⟨some mul, edges⟩
        | _, _, _, _ => ⟨none, []⟩
      else ⟨none, []⟩
  | _ => ⟨none, []⟩

/-- An `AllReduce` call that `visitL1` records: a call of the `AllReduce`
primitive with at least one operand (`cnode->size() > 1`, line 160). -/
def isAllReduceCall1 (n : AnfNode) : Bool :=
  isPrimitiveCNode .AllReduce n && decide (2 ≤ n.inputs.length)

/-- Whether a level-0 visit of `n` produces the reduce-mul match: `n` is
a `Mul` call one of whose operands is an `AllReduce` call with an
operand. -/
def triggersReduceMatch (n : AnfNode) : Bool :=
  isPrimitiveCNode .Mul n && (n.inputs.tail).any isAllReduceCall1

/-! ## Shape constructors used by the statements. -/

/-- A binary call `p(a, b)` with operator-node id `oi` and call id `ci`. -/
def mkBin (p : Prim) (oi ci : Nat) (a b : AnfNode) (fg : Option Nat) : AnfNode :=
  .cnode ci [.vnode oi (.prim p), a, b] fg

/-- An `AllReduce(x, rest...)` call owned by sub-graph `g`. -/
def mkAllReduce (ci oi : Nat) (x : AnfNode) (rest : List AnfNode) (g : Nat) : AnfNode :=
  .cnode ci (.vnode oi (.prim .AllReduce) :: x :: rest) (some g)

/-- A unary call `AddN(a)`. -/
def mkAddN1 (ci oi : Nat) (a : AnfNode) (fg : Option Nat) : AnfNode :=
  .cnode ci [.vnode oi (.prim .AddN), a] fg

/-! ## Concrete graphs used by the counterexamples. -/

/-- Counterexample candidate: `AddN(MakeTuple(Mul(p1, AllReduce(p4)), p7))`,
a multiply whose `AllReduce` is the second operand. -/
def cexMulSecondAR : AnfNode :=
  mkAddN1 10 11 (mkBin .MakeTuple 9 8
    (mkBin .Mul 6 5 (.param 1) (mkAllReduce 2 3 (.param 4) [] 0) (some 0))
    (.param 7) (some 0)) (some 0)

/-- Counterexample candidate: the detached nested-constant-multiply
`2 * (3 * p6)` with no owning sub-graph anywhere. -/
def cexDetachedConstDup : AnfNode :=
  mkBin .Mul 0 5 (.vnode 1 (.lit ⟨2, false, []⟩))
    (mkBin .Mul 2 4 (.vnode 3 (.lit ⟨3, false, []⟩)) (.param 6) none) none

/-- Counterexample candidate: `0 + p2`, the zero as first operand of the
generic tensor add. -/
def cexZeroPlusX : AnfNode :=
  mkBin .TensorAdd 0 3 (.vnode 1 (.lit ⟨0, false, []⟩)) (.param 2) (some 0)

/-- Counterexample candidate: `scalar_mul(0, 1)`, the second operand being
the scalar literal one. -/
def cexScalarMulZeroOne : AnfNode :=
  mkBin .ScalarMul 0 10 (.vnode 1 (.lit ⟨0, true, []⟩)) (.vnode 2 (.lit ⟨1, true, []⟩)) (some 0)

/-! ## Helper lemmas on the visitor state machine. -/

theorem visitL1_frame (s : ARState) (n : AnfNode) :
    (visitL1 s n).level = s.level ∧ (visitL1 s n).y = s.y ∧
    (visitL1 s n).z = s.z ∧ (visitL1 s n).mul = s.mul ∧
    (visitL1 s n).mul_cnode = s.mul_cnode := by
  unfold visitL1
  split
  · split <;> simp
  · simp

theorem visitL1_reduce (s : ARState) (n : AnfNode) :
    (visitL1 s n).is_reduce_match = (s.is_reduce_match || isAllReduceCall1 n) := by
  cases n with
  | cnode i ins fg =>
      cases ins with
      | nil => simp [visitL1, isPrimitiveCNode, isAllReduceCall1]
      | cons op rest =>
          cases rest with
          | nil =>
              by_cases hp : isPrimNode .AllReduce op <;>
                simp [visitL1, isPrimitiveCNode, isAllReduceCall1, AnfNode.inputs, hp]
          | cons a rest2 =>
              by_cases hp : isPrimNode .AllReduce op <;>
                simp [visitL1, isPrimitiveCNode, isAllReduceCall1, AnfNode.inputs, hp,
                  Nat.succ_le_succ, Nat.le_add_left]
  | vnode i v => simp [visitL1, isPrimitiveCNode, isAllReduceCall1]
  | param i => simp [visitL1, isPrimitiveCNode, isAllReduceCall1]

theorem visitL1_not_ar (s : ARState) (n : AnfNode)
    (h : isAllReduceCall1 n = false) :
    (visitL1 s n).x = s.x ∧ (visitL1 s n).all_reduce = s.all_reduce ∧
    (visitL1 s n).all_reduce_fg = s.all_reduce_fg := by
  cases n with
  | cnode i ins fg =>
      cases ins with
      | nil => simp [visitL1, isPrimitiveCNode]
      | cons op rest =>
          cases rest with
          | nil =>
              by_cases hp : isPrimNode .AllReduce op <;>
                simp [visitL1, isPrimitiveCNode, hp]
          | cons a rest2 =>
              have hp : isPrimNode .AllReduce op = false := by
                by_contra hc
                simp [isAllReduceCall1, isPrimitiveCNode, AnfNode.inputs,
                  eq_true_of_ne_false hc, Nat.succ_le_succ, Nat.le_add_left] at h
              simp [visitL1, isPrimitiveCNode, hp]
  | vnode i v => simp [visitL1, isPrimitiveCNode]
  | param i => simp [visitL1, isPrimitiveCNode]

theorem foldl_visitL1_frame (ops : List AnfNode) (s : ARState) :
    (ops.foldl visitL1 s).level = s.level ∧ (ops.foldl visitL1 s).y = s.y ∧
    (ops.foldl visitL1 s).z = s.z ∧ (ops.foldl visitL1 s).mul = s.mul ∧
    (ops.foldl visitL1 s).mul_cnode = s.mul_cnode := by
  induction ops generalizing s with
  | nil => simp
  | cons n rest ih =>
      have h1 := visitL1_frame s n
      have h2 := ih (visitL1 s n)
      simp only [List.foldl_cons]
      exact ⟨h2.1.trans h1.1, h2.2.1.trans h1.2.1, h2.2.2.1.trans h1.2.2.1,
        h2.2.2.2.1.trans h1.2.2.2.1, h2.2.2.2.2.trans h1.2.2.2.2⟩

theorem foldl_visitL1_reduce (ops : List AnfNode) (s : ARState) :
    (ops.foldl visitL1 s).is_reduce_match =
      (s.is_reduce_match || ops.any isAllReduceCall1) := by
  induction ops generalizing s with
  | nil => simp
  | cons n rest ih =>
      simp only [List.foldl_cons, List.any_cons]
      rw [ih (visitL1 s n), visitL1_reduce, Bool.or_assoc]

theorem foldl_visitL1_not_ar (ops : List AnfNode) (s : ARState)
    (h : ∀ n ∈ ops, isAllReduceCall1 n = false) :
    (ops.foldl visitL1 s).x = s.x ∧ (ops.foldl visitL1 s).all_reduce = s.all_reduce ∧
    (ops.foldl visitL1 s).all_reduce_fg = s.all_reduce_fg := by
  induction ops generalizing s with
  | nil => simp
  | cons n rest ih =>
      have h1 := visitL1_not_ar s n (h n (List.mem_cons_self n rest))
      have h2 := ih (visitL1 s n) (fun m hm => h m (List.mem_cons_of_mem n hm))
      simp only [List.foldl_cons]
      exact ⟨h2.1.trans h1.1, h2.2.1.trans h1.2.1, h2.2.2.trans h1.2.2⟩

/-- Unfolding of `Visit` at level 0. -/
theorem Visit_level0 (s : ARState) (n : AnfNode) (hlv : s.level = 0) :
    Visit s n =
      (let s1 : ARState := { s with level := 1, is_reduce_match := false }
       let s2 := if isPrimitiveCNode .Mul n then n.inputs.tail.foldl visitL1 s1 else s1
       let s3 : ARState := { s2 with level := 0 }
       if s3.is_reduce_match then
         { s3 with mul := n.inputs.head?, mul_cnode := some n, y := s3.tmp }
       else
         { s3 with z := some n }) := by
  unfold Visit
  rw [if_pos hlv]

/-- A level-0 visit of a node that does not produce the reduce-mul match
records the node as `z` and leaves every other binding unchanged (the
scratch field `tmp` aside). -/
theorem Visit_level0_nontrigger (s : ARState) (n : AnfNode)
    (hlv : s.level = 0) (h : triggersReduceMatch n = false) :
    (Visit s n).z = some n ∧ (Visit s n).x = s.x ∧ (Visit s n).y = s.y ∧
    (Visit s n).level = 0 ∧ (Visit s n).is_reduce_match = false ∧
    (Visit s n).mul = s.mul ∧ (Visit s n).mul_cnode = s.mul_cnode ∧
    (Visit s n).all_reduce = s.all_reduce ∧
    (Visit s n).all_reduce_fg = s.all_reduce_fg := by
  rw [Visit_level0 s n hlv]
  by_cases hm : isPrimitiveCNode .Mul n
  · have hany : (n.inputs.tail).any isAllReduceCall1 = false := by
      simpa [triggersReduceMatch, hm] using h
    have hall : ∀ m ∈ n.inputs.tail, isAllReduceCall1 m = false := by
      intro m hmem
      cases hmb : isAllReduceCall1 m with
      | false => rfl
      | true =>
          have hc : (n.inputs.tail).any isAllReduceCall1 = true :=
            List.any_eq_true.mpr ⟨m, hmem, hmb⟩
          rw [hc] at hany
          cases hany
    have hred : (n.inputs.tail.foldl visitL1
        { s with level := 1, is_reduce_match := false }).is_reduce_match = false := by
      rw [foldl_visitL1_reduce]
      simp [hany]
    have hpres := foldl_visitL1_not_ar (n.inputs.tail)
      { s with level := 1, is_reduce_match := false } hall
    have hframe := foldl_visitL1_frame (n.inputs.tail)
      { s with level := 1, is_reduce_match := false }
    simp only [hm, if_true]
    simp [hred, hpres.1, hpres.2.1, hpres.2.2,
      hframe.2.1, hframe.2.2.1, hframe.2.2.2.1, hframe.2.2.2.2]
  · simp [hm]

/-- A level-1 visit of an `AllReduce(x, ...)` call records its operator
node, `x` and its owning sub-graph and marks the reduce-mul match. -/
theorem visitL1_ar (s : ARState) (ai aoi : Nat) (x : AnfNode)
    (rest : List AnfNode) (g : Nat) :
    visitL1 s (mkAllReduce ai aoi x rest g) =
      ⟨s.level, true, some x, s.y, s.z, s.tmp,
        some (.vnode aoi (.prim .AllReduce)), s.mul, s.mul_cnode, some g⟩ := by
  simp [visitL1, mkAllReduce, isPrimitiveCNode, isPrimNode]

/-- A level-1 visit of a node that is not an `AllReduce` call records it
in the scratch field `tmp`. -/
theorem visitL1_other (s : ARState) (n : AnfNode)
    (h : isPrimitiveCNode .AllReduce n = false) :
    visitL1 s n = { s with tmp := some n } := by
  simp [visitL1, h]

/-- A level-0 visit of a multiply of the reduce-mul shape
`Mul(AllReduce(x, ...), y)` (with `y` not itself an `AllReduce` call)
marks the reduce-mul branch: it records the multiply's operator node, the
multiply itself, `x`, `y`, the `AllReduce`'s operator node and its owning
sub-graph. -/
theorem Visit_level0_mulshape (s : ARState)
    (mi moi ai aoi g : Nat) (x y : AnfNode) (arRest : List AnfNode) (fgm : Option Nat)
    (hlv : s.level = 0)
    (hy : isPrimitiveCNode .AllReduce y = false) :
    Visit s (mkBin .Mul moi mi (mkAllReduce ai aoi x arRest g) y fgm) =
      ⟨0, true, some x, some y, s.z, some y,
        some (.vnode aoi (.prim .AllReduce)),
        some (.vnode moi (.prim .Mul)),
        some (mkBin .Mul moi mi (mkAllReduce ai aoi x arRest g) y fgm),
        some g⟩ := by
  rw [Visit_level0 _ _ hlv]
  have hcond : isPrimitiveCNode .Mul (mkBin .Mul moi mi (mkAllReduce ai aoi x arRest g) y fgm)
      = true := by
    simp [mkBin, isPrimitiveCNode, isPrimNode]
  have htail : (mkBin .Mul moi mi (mkAllReduce ai aoi x arRest g) y fgm).inputs.tail
      = [mkAllReduce ai aoi x arRest g, y] := by
    simp [mkBin, AnfNode.inputs]
  have hhead : (mkBin .Mul moi mi (mkAllReduce ai aoi x arRest g) y fgm).inputs.head?
      = some (.vnode moi (.prim .Mul)) := by
    simp [mkBin, AnfNode.inputs]
  simp only [hcond, if_true, htail, hhead, List.foldl_cons, List.foldl_nil]
  rw [visitL1_ar, visitL1_other _ _ hy]
  simp

/-- The binding state after the matching phase on the accepted shape
`AddN(MakeTuple(Mul(AllReduce(x, ...), y), z))`: all of `x`, `y`, `z`,
the `AllReduce`'s sub-graph, and the operator references are bound. -/
theorem matchShape_bindings (ti toi mi moi ai aoi g : Nat)
    (x y z : AnfNode) (arRest : List AnfNode) (fgm fgt : Option Nat)
    (hy : isPrimitiveCNode .AllReduce y = false)
    (hz : triggersReduceMatch z = false) :
    (matchMakeTupleVisit resetState
        (mkBin .MakeTuple toi ti (mkBin .Mul moi mi (mkAllReduce ai aoi x arRest g) y fgm) z fgt)).x
        = some x ∧
    (matchMakeTupleVisit resetState
        (mkBin .MakeTuple toi ti (mkBin .Mul moi mi (mkAllReduce ai aoi x arRest g) y fgm) z fgt)).y
        = some y ∧
    (matchMakeTupleVisit resetState
        (mkBin .MakeTuple toi ti (mkBin .Mul moi mi (mkAllReduce ai aoi x arRest g) y fgm) z fgt)).z
        = some z ∧
    (matchMakeTupleVisit resetState
        (mkBin .MakeTuple toi ti (mkBin .Mul moi mi (mkAllReduce ai aoi x arRest g) y fgm) z fgt)).all_reduce_fg
        = some g ∧
    (matchMakeTupleVisit resetState
        (mkBin .MakeTuple toi ti (mkBin .Mul moi mi (mkAllReduce ai aoi x arRest g) y fgm) z fgt)).all_reduce
        = some (.vnode aoi (.prim .AllReduce)) ∧
    (matchMakeTupleVisit resetState
        (mkBin .MakeTuple toi ti (mkBin .Mul moi mi (mkAllReduce ai aoi x arRest g) y fgm) z fgt)).mul
        = some (.vnode moi (.prim .Mul)) ∧
    (matchMakeTupleVisit resetState
        (mkBin .MakeTuple toi ti (mkBin .Mul moi mi (mkAllReduce ai aoi x arRest g) y fgm) z fgt)).mul_cnode
        = some (mkBin .Mul moi mi (mkAllReduce ai aoi x arRest g) y fgm) := by
  have hstep1 := Visit_level0_mulshape resetState mi moi ai aoi g x y arRest fgm rfl hy
  have hfold : matchMakeTupleVisit resetState
      (mkBin .MakeTuple toi ti (mkBin .Mul moi mi (mkAllReduce ai aoi x arRest g) y fgm) z fgt)
      = Visit (Visit resetState (mkBin .Mul moi mi (mkAllReduce ai aoi x arRest g) y fgm)) z := by
    simp [matchMakeTupleVisit, mkBin, isPrimitiveCNode, isPrimNode, AnfNode.inputs]
  rw [hfold, hstep1]
  have h2 := Visit_level0_nontrigger
    ⟨0, true, some x, some y, resetState.z, some y,
      some (.vnode aoi (.prim .AllReduce)),
      some (.vnode moi (.prim .Mul)),
      some (mkBin .Mul moi mi (mkAllReduce ai aoi x arRest g) y fgm),
      some g⟩
    z rfl hz
  exact ⟨h2.2.1, h2.2.2.1, h2.1, h2.2.2.2.2.2.2.2.2, h2.2.2.2.2.2.2.2.1,
    h2.2.2.2.2.2.1, h2.2.2.2.2.2.2.1⟩

/-- Full evaluation of `AdjustAllReduceMulAdd` on the accepted shape
`AddN(MakeTuple(Mul(AllReduce(x, ...), y), z))`: the returned replacement
and the dependency-edge repairs, with every new call built in the
`AllReduce`'s sub-graph `g` and the original operator nodes reused. -/
theorem adjust_accept (mgr : Manager) (ni noi ti toi mi moi ai aoi g fresh : Nat)
    (x y z : AnfNode) (arRest : List AnfNode) (fgm fgt fgn : Option Nat)
    (hy : isPrimitiveCNode .AllReduce y = false)
    (hz : triggersReduceMatch z = false) :
    AdjustAllReduceMulAdd mgr
      (mkAddN1 ni noi
        (mkBin .MakeTuple toi ti (mkBin .Mul moi mi (mkAllReduce ai aoi x arRest g) y fgm) z fgt)
        fgn) fresh =
      ⟨some (.cnode (fresh+4) [.vnode moi (.prim .Mul),
          .cnode (fresh+3) [.vnode aoi (.prim .AllReduce),
            .cnode (fresh+2) [.vnode noi (.prim .AddN),
              .cnode (fresh+1) [.vnode toi (.prim .MakeTuple), rehome z g fresh, x] (some g)]
              (some g)] (some g),
          y] (some g)),
        ProcessDependEdge mgr (mkBin .Mul moi mi (mkAllReduce ai aoi x arRest g) y fgm)
          (mkBin .MakeTuple toi ti (mkBin .Mul moi mi (mkAllReduce ai aoi x arRest g) y fgm) z fgt)
          (.cnode (fresh+3) [.vnode aoi (.prim .AllReduce),
            .cnode (fresh+2) [.vnode noi (.prim .AddN),
              .cnode (fresh+1) [.vnode toi (.prim .MakeTuple), rehome z g fresh, x] (some g)]
              (some g)] (some g))⟩ := by
  have hb := matchShape_bindings ti toi mi moi ai aoi g x y z arRest fgm fgt hy hz
  simp only [mkBin, mkAllReduce, mkAddN1] at hb ⊢
  simp [AdjustAllReduceMulAdd, isPrimNode, AnfNode.inputs,
    hb.1, hb.2.1, hb.2.2.1, hb.2.2.2.1, hb.2.2.2.2.1, hb.2.2.2.2.2.1, hb.2.2.2.2.2.2]

/-- Refusal: with any of the four bindings missing after the matching
phase, the pass returns nothing and requests nothing. -/
theorem adjust_reject (mgr : Manager) (node : AnfNode) (fresh : Nat)
    (h : (adjustMatch node).x = none ∨ (adjustMatch node).y = none ∨
         (adjustMatch node).z = none ∨ (adjustMatch node).all_reduce_fg = none) :
    AdjustAllReduceMulAdd mgr node fresh = ⟨none, []⟩ := by
  cases node with
  | vnode i v => rfl
  | param i => rfl
  | cnode i ins fg =>
      rcases ins with _ | ⟨a, _ | ⟨b, _ | ⟨c, rest⟩⟩⟩
      · rfl
      · rfl
      · simp only [adjustMatch] at h
        simp only [AdjustAllReduceMulAdd]
        by_cases hop : isPrimNode .AddN a
        · simp only [hop, if_true] at h ⊢
          rcases hx : (matchMakeTupleVisit resetState b).x with _ | x0 <;>
            rcases hy2 : (matchMakeTupleVisit resetState b).y with _ | y0 <;>
            rcases hz2 : (matchMakeTupleVisit resetState b).z with _ | z0 <;>
            rcases hfg : (matchMakeTupleVisit resetState b).all_reduce_fg with _ | g0 <;>
            simp [hx, hy2, hz2, hfg] at h ⊢
        · simp [hop]
      · rfl

/-- The `AddN`-with-one-operand pre-check feeds the operand to the
`MakeTuple` matcher. -/
theorem adjustMatch_addn (ci oi : Nat) (mt : AnfNode) (fg : Option Nat) :
    adjustMatch (mkAddN1 ci oi mt fg) = matchMakeTupleVisit resetState mt := by
  simp [adjustMatch, mkAddN1, isPrimNode]

/-- The `MakeTuple` matcher on a binary tuple visits the two elements in
order. -/
theorem matchMakeTupleVisit_bin (s : ARState) (ti toi : Nat) (a b : AnfNode)
    (fg : Option Nat) :
    matchMakeTupleVisit s (mkBin .MakeTuple toi ti a b fg) = Visit (Visit s a) b := by
  simp [matchMakeTupleVisit, mkBin, isPrimitiveCNode, isPrimNode, AnfNode.inputs]

/-- The `MakeTuple` matcher refuses a tuple whose element count is not
two, leaving the state untouched. -/
theorem matchMakeTupleVisit_badlen (s : ARState) (ti toi : Nat)
    (elems : List AnfNode) (fg : Option Nat) (h : elems.length ≠ 2) :
    matchMakeTupleVisit s (.cnode ti (.vnode toi (.prim .MakeTuple) :: elems) fg) = s := by
  simp [matchMakeTupleVisit, AnfNode.inputs, h]

/-- A level-0 visit of a node that does produce the reduce-mul match
overwrites the multiply bindings and leaves `z` alone. -/
theorem Visit_level0_trigger (s : ARState) (n : AnfNode)
    (hlv : s.level = 0) (h : triggersReduceMatch n = true) :
    (Visit s n).z = s.z ∧ (Visit s n).mul_cnode = some n ∧ (Visit s n).level = 0 := by
  rw [Visit_level0 s n hlv]
  rw [triggersReduceMatch, Bool.and_eq_true] at h
  have hm : isPrimitiveCNode .Mul n = true := h.1
  have hany : (n.inputs.tail).any isAllReduceCall1 = true := h.2
  have hred : (n.inputs.tail.foldl visitL1
      { s with level := 1, is_reduce_match := false }).is_reduce_match = true := by
    rw [foldl_visitL1_reduce]
    simp [hany]
  have hframe := foldl_visitL1_frame (n.inputs.tail)
    { s with level := 1, is_reduce_match := false }
  simp only [hm, if_true]
  simp [hred, hframe.2.2.1]

/-- Membership in the edge-repair list: exactly the recorded users of the
matched multiply that are `MakeTuple` calls other than the matched
`MakeTuple`, re-pointed to `new`. -/
theorem mem_ProcessDependEdge (mgr : Manager) (mul mt new : AnfNode)
    (us : List (AnfNode × Nat)) (hus : mgrUsers mgr mul.nid = some us)
    (c : AnfNode) (i : Nat) (nn : AnfNode) :
    ((c, i, nn) ∈ ProcessDependEdge mgr mul mt new) ↔
      ((c, i) ∈ us ∧ c.nid ≠ mt.nid ∧ isPrimitiveCNode .MakeTuple c = true ∧ nn = new) := by
  unfold ProcessDependEdge
  rw [hus]
  simp only [List.mem_filterMap]
  constructor
  · rintro ⟨⟨a, j⟩, hmem, hf⟩
    by_cases hcond : a.nid ≠ mt.nid ∧ isPrimitiveCNode .MakeTuple a = true
    · rw [if_pos hcond] at hf
      have h1 : a = c ∧ (j, new) = (i, nn) := Prod.mk.injEq .. ▸ (Option.some.injEq .. ▸ hf)
      have h2 : j = i ∧ new = nn := Prod.mk.injEq .. ▸ h1.2
      rcases h1 with ⟨rfl, -⟩
      rcases h2 with ⟨rfl, rfl⟩
      exact ⟨hmem, hcond.1, hcond.2, rfl⟩
    · rw [if_neg hcond] at hf
      cases hf
  · rintro ⟨hmem, hne, hmk, rfl⟩
    refine ⟨(c, i), hmem, ?_⟩
    rw [if_pos ⟨hne, hmk⟩]

/-- A level-0 visit of a multiply whose `AllReduce` is the second operand,
`Mul(p, AllReduce(x, ...))` with `p` not an `AllReduce` call, also marks
the reduce-mul branch, binding `y` to the first operand `p`. -/
theorem Visit_level0_mulshape2 (s : ARState)
    (mi moi ai aoi g : Nat) (x p : AnfNode) (arRest : List AnfNode) (fgm : Option Nat)
    (hlv : s.level = 0)
    (hp : isPrimitiveCNode .AllReduce p = false) :
    Visit s (mkBin .Mul moi mi p (mkAllReduce ai aoi x arRest g) fgm) =
      ⟨0, true, some x, some p, s.z, some p,
        some (.vnode aoi (.prim .AllReduce)),
        some (.vnode moi (.prim .Mul)),
        some (mkBin .Mul moi mi p (mkAllReduce ai aoi x arRest g) fgm),
        some g⟩ := by
  rw [Visit_level0 _ _ hlv]
  have hcond : isPrimitiveCNode .Mul (mkBin .Mul moi mi p (mkAllReduce ai aoi x arRest g) fgm)
      = true := by
    simp [mkBin, isPrimitiveCNode, isPrimNode]
  have htail : (mkBin .Mul moi mi p (mkAllReduce ai aoi x arRest g) fgm).inputs.tail
      = [p, mkAllReduce ai aoi x arRest g] := by
    simp [mkBin, AnfNode.inputs]
  have hhead : (mkBin .Mul moi mi p (mkAllReduce ai aoi x arRest g) fgm).inputs.head?
      = some (.vnode moi (.prim .Mul)) := by
    simp [mkBin, AnfNode.inputs]
  simp only [hcond, if_true, htail, hhead, List.foldl_cons, List.foldl_nil]
  rw [visitL1_other _ _ hp, visitL1_ar]
  simp

/-- The binding state after the matching phase on
`AddN(MakeTuple(Mul(p, AllReduce(x, ...)), z))`: all bindings are filled,
with `y` bound to the multiply's first operand `p`. -/
theorem matchShape2_bindings (ti toi mi moi ai aoi g : Nat)
    (x p z : AnfNode) (arRest : List AnfNode) (fgm fgt : Option Nat)
    (hp : isPrimitiveCNode .AllReduce p = false)
    (hz : triggersReduceMatch z = false) :
    (matchMakeTupleVisit resetState
        (mkBin .MakeTuple toi ti (mkBin .Mul moi mi p (mkAllReduce ai aoi x arRest g) fgm) z fgt)).x
        = some x ∧
    (matchMakeTupleVisit resetState
        (mkBin .MakeTuple toi ti (mkBin .Mul moi mi p (mkAllReduce ai aoi x arRest g) fgm) z fgt)).y
        = some p ∧
    (matchMakeTupleVisit resetState
        (mkBin .MakeTuple toi ti (mkBin .Mul moi mi p (mkAllReduce ai aoi x arRest g) fgm) z fgt)).z
        = some z ∧
    (matchMakeTupleVisit resetState
        (mkBin .MakeTuple toi ti (mkBin .Mul moi mi p (mkAllReduce ai aoi x arRest g) fgm) z fgt)).all_reduce_fg
        = some g ∧
    (matchMakeTupleVisit resetState
        (mkBin .MakeTuple toi ti (mkBin .Mul moi mi p (mkAllReduce ai aoi x arRest g) fgm) z fgt)).all_reduce
        = some (.vnode aoi (.prim .AllReduce)) ∧
    (matchMakeTupleVisit resetState
        (mkBin .MakeTuple toi ti (mkBin .Mul moi mi p (mkAllReduce ai aoi x arRest g) fgm) z fgt)).mul
        = some (.vnode moi (.prim .Mul)) ∧
    (matchMakeTupleVisit resetState
        (mkBin .MakeTuple toi ti (mkBin .Mul moi mi p (mkAllReduce ai aoi x arRest g) fgm) z fgt)).mul_cnode
        = some (mkBin .Mul moi mi p (mkAllReduce ai aoi x arRest g) fgm) := by
  have hstep1 := Visit_level0_mulshape2 resetState mi moi ai aoi g x p arRest fgm rfl hp
  have hfold : matchMakeTupleVisit resetState
      (mkBin .MakeTuple toi ti (mkBin .Mul moi mi p (mkAllReduce ai aoi x arRest g) fgm) z fgt)
      = Visit (Visit resetState (mkBin .Mul moi mi p (mkAllReduce ai aoi x arRest g) fgm)) z := by
    simp [matchMakeTupleVisit, mkBin, isPrimitiveCNode, isPrimNode, AnfNode.inputs]
  rw [hfold, hstep1]
  have h2 := Visit_level0_nontrigger
    ⟨0, true, some x, some p, resetState.z, some p,
      some (.vnode aoi (.prim .AllReduce)),
      some (.vnode moi (.prim .Mul)),
      some (mkBin .Mul moi mi p (mkAllReduce ai aoi x arRest g) fgm),
      some g⟩
    z rfl hz
  exact ⟨h2.2.1, h2.2.2.1, h2.1, h2.2.2.2.2.2.2.2.2, h2.2.2.2.2.2.2.2.1,
    h2.2.2.2.2.2.1, h2.2.2.2.2.2.2.1⟩

/-- Full evaluation of the pass when the matched multiply carries its
`AllReduce` in second operand position: the rewrite still fires, with `y`
bound to the multiply's first operand. -/
theorem adjust_accept2 (mgr : Manager) (ni noi ti toi mi moi ai aoi g fresh : Nat)
    (x p z : AnfNode) (arRest : List AnfNode) (fgm fgt fgn : Option Nat)
    (hp : isPrimitiveCNode .AllReduce p = false)
    (hz : triggersReduceMatch z = false) :
    AdjustAllReduceMulAdd mgr
      (mkAddN1 ni noi
        (mkBin .MakeTuple toi ti (mkBin .Mul moi mi p (mkAllReduce ai aoi x arRest g) fgm) z fgt)
        fgn) fresh =
      ⟨some (.cnode (fresh+4) [.vnode moi (.prim .Mul),
          .cnode (fresh+3) [.vnode aoi (.prim .AllReduce),
            .cnode (fresh+2) [.vnode noi (.prim .AddN),
              .cnode (fresh+1) [.vnode toi (.prim .MakeTuple), rehome z g fresh, x] (some g)]
              (some g)] (some g),
          p] (some g)),
        ProcessDependEdge mgr (mkBin .Mul moi mi p (mkAllReduce ai aoi x arRest g) fgm)
          (mkBin .MakeTuple toi ti (mkBin .Mul moi mi p (mkAllReduce ai aoi x arRest g) fgm) z fgt)
          (.cnode (fresh+3) [.vnode aoi (.prim .AllReduce),
            .cnode (fresh+2) [.vnode noi (.prim .AddN),
              .cnode (fresh+1) [.vnode toi (.prim .MakeTuple), rehome z g fresh, x] (some g)]
              (some g)] (some g))⟩ := by
  have hb := matchShape2_bindings ti toi mi moi ai aoi g x p z arRest fgm fgt hp hz
  simp only [mkBin, mkAllReduce, mkAddN1] at hb ⊢
  simp [AdjustAllReduceMulAdd, isPrimNode, AnfNode.inputs,
    hb.1, hb.2.1, hb.2.2.1, hb.2.2.2.1, hb.2.2.2.2.1, hb.2.2.2.2.2.1, hb.2.2.2.2.2.2]

/-! ## Evaluation lemmas for the constant matchers. -/

theorem isConstVal_vnode (v : Int) (k : Nat) (l : Lit) :
    isConstVal v (.vnode k (.lit l)) = decide (l.val = v) := by
  by_cases hv : l.val = v <;> simp [isConstVal, AnfNode.litOf, hv]

theorem isScalarConstVal_vnode (v : Int) (k : Nat) (l : Lit) :
    isScalarConstVal v (.vnode k (.lit l)) = (decide (l.val = v) && l.isScalar) := by
  rcases hb : l.isScalar <;> by_cases hv : l.val = v <;>
    simp [isScalarConstVal, AnfNode.litOf, hv, hb]

theorem isConstVal_param (v : Int) (q : Nat) : isConstVal v (.param q) = false := rfl

theorem isScalarConstVal_param (v : Int) (q : Nat) :
    isScalarConstVal v (.param q) = false := rfl

theorem isVNode_vnode (k : Nat) (v : Val) : (AnfNode.vnode k v).isVNode = true := rfl

theorem isConstVal_cnode (v : Int) (i : Nat) (ins : List AnfNode) (fg : Option Nat) :
    isConstVal v (.cnode i ins fg) = false := rfl

theorem isScalarConstVal_cnode (v : Int) (i : Nat) (ins : List AnfNode) (fg : Option Nat) :
    isScalarConstVal v (.cnode i ins fg) = false := rfl

theorem isVNode_cnode (i : Nat) (ins : List AnfNode) (fg : Option Nat) :
    (AnfNode.cnode i ins fg).isVNode = false := rfl

theorem isVNode_param (q : Nat) : (AnfNode.param q).isVNode = false := rfl

/-- The whole sweep-1 chain on the `ConstantDuplicateMul` shape
`c1 * (c2 * x)`: the builder fires, reusing the outer multiply's operator
node; the folded constant becomes a fresh value node on fold success, and
a fresh inner multiply call over the two original constant nodes on fold
failure. -/
theorem constdup_eval (oi ci oj cj a b fresh : Nat) (c1 c2 : Lit) (x : AnfNode)
    (fg fgi : Option Nat) :
    ArithmeticSimplify
      (mkBin .Mul oi ci (.vnode a (.lit c1))
        (mkBin .Mul oj cj (.vnode b (.lit c2)) x fgi) fg) fresh =
      (match foldMul c1 c2 with
       | some l => some (.cnode (fresh+1)
           [.vnode oi (.prim .Mul), x, .vnode fresh (.lit l)] fg)
       | none => some (.cnode (fresh+1)
           [.vnode oi (.prim .Mul), x,
             .cnode fresh [.vnode oi (.prim .Mul), .vnode a (.lit c1), .vnode b (.lit c2)] fg] fg)) := by
  rcases hf : foldMul c1 c2 with _ | l <;>
    simp [ArithmeticSimplify, pick, ruleAddZero, ruleAddZeroScalar, ruleScalarAddZeroL,
      ruleScalarAddZeroR, ruleMulOne, ruleScalarMulOneL, ruleScalarMulOneR,
      ruleScalarMulZeroL, ruleScalarMulZeroR, ruleIdentity, ruleConstDup, ruleMomentum,
      rulePowOne, mkBin, isPrimNode, isConstVal_vnode, isScalarConstVal_vnode,
      isConstVal_cnode, isScalarConstVal_cnode, isVNode_cnode,
      AnfNode.litOf, AnfNode.fgOf, hf]

/-! ## Claim theorems. -/

/-- C1: for every node of the shape `AddN(MakeTuple(Mul(AllReduce(x), y),
z))` with all parts bound (the `AllReduce` owns a sub-graph `g`; `y` is
not itself an `AllReduce` call and `z` is not itself a reduce-mul branch,
which would shift the bindings), `AdjustAllReduceMulAdd` returns a
replacement of the shape `Mul(AllReduce(AddN(MakeTuple(z, x))), y)`. The
four new call nodes (ids `fresh+1` to `fresh+4`) are all built in the
`AllReduce`'s sub-graph `g`, and they reuse, by identity, the original
`AddN` operator node (`.vnode noi`), the original `MakeTuple` operator
node (`.vnode toi`), the matched `AllReduce`'s operator node
(`.vnode aoi`) and the matched `Mul`'s operator node (`.vnode moi`).
A `z` that is a call of a different sub-graph is first rebuilt in `g`
(`rehome`), per the source's cross-graph step. -/
theorem claim_C1 (mgr : Manager) (ni noi ti toi mi moi ai aoi g fresh : Nat)
    (x y z : AnfNode) (arRest : List AnfNode) (fgm fgt fgn : Option Nat)
    (hy : isPrimitiveCNode .AllReduce y = false)
    (hz : triggersReduceMatch z = false) :
    (AdjustAllReduceMulAdd mgr
      (mkAddN1 ni noi
        (mkBin .MakeTuple toi ti (mkBin .Mul moi mi (mkAllReduce ai aoi x arRest g) y fgm) z fgt)
        fgn) fresh).repl =
      some (.cnode (fresh+4) [.vnode moi (.prim .Mul),
        .cnode (fresh+3) [.vnode aoi (.prim .AllReduce),
          .cnode (fresh+2) [.vnode noi (.prim .AddN),
            .cnode (fresh+1) [.vnode toi (.prim .MakeTuple), rehome z g fresh, x] (some g)]
            (some g)] (some g),
        y] (some g)) := by
  rw [adjust_accept mgr ni noi ti toi mi moi ai aoi g fresh x y z arRest fgm fgt fgn hy hz]

/-- Witness for C1 at a concrete graph: the rewrite of
`AddN(MakeTuple(Mul(AllReduce(p4), p1), p7))` in sub-graph 0. -/
theorem claim_C1_witness :
    isPrimitiveCNode .AllReduce (.param 1) = false ∧
    triggersReduceMatch (.param 7) = false ∧
    (AdjustAllReduceMulAdd []
      (mkAddN1 10 11
        (mkBin .MakeTuple 9 8
          (mkBin .Mul 6 5 (mkAllReduce 2 3 (.param 4) [] 0) (.param 1) (some 0))
          (.param 7) (some 0)) (some 0)) 100).repl =
      some (.cnode 104 [.vnode 6 (.prim .Mul),
        .cnode 103 [.vnode 3 (.prim .AllReduce),
          .cnode 102 [.vnode 11 (.prim .AddN),
            .cnode 101 [.vnode 9 (.prim .MakeTuple), rehome (.param 7) 0 100, .param 4] (some 0)]
            (some 0)] (some 0),
        .param 1] (some 0)) :=
  ⟨rfl, rfl,
    claim_C1 [] 10 11 8 9 5 6 2 3 0 100 (.param 4) (.param 1) (.param 7) []
      (some 0) (some 0) (some 0) rfl rfl⟩

/-- C2 counterexample: a `Mul` whose `AllReduce` appears only as its
second operand DOES produce a rewrite (the claim says it does not):
on `AddN(MakeTuple(Mul(p1, AllReduce(p4)), p7))` the pass returns a
replacement node. -/
theorem claim_C2_counterexample :
    (AdjustAllReduceMulAdd [] cexMulSecondAR 100).repl.isSome = true ∧
    (AdjustAllReduceMulAdd [] cexMulSecondAR 100).repl =
      some (.cnode 104 [.vnode 6 (.prim .Mul),
        .cnode 103 [.vnode 3 (.prim .AllReduce),
          .cnode 102 [.vnode 11 (.prim .AddN),
            .cnode 101 [.vnode 9 (.prim .MakeTuple), .param 7, .param 4] (some 0)]
            (some 0)] (some 0),
        .param 1] (some 0)) :=
  ⟨rfl, rfl⟩

/-- C2 amended: a candidate `AddN` whose `MakeTuple` holds more than two
elements produces no rewrite and no edge request; a candidate neither of
whose two tuple elements matches the reduce-mul shape (no operand of
either is an `AllReduce` call with an argument) likewise produces
nothing; but a `Mul` whose `AllReduce` appears only as its second operand
DOES produce a rewrite, with `y` bound to the multiply's first
operand. -/
theorem claim_C2_amended (mgr : Manager) (ni noi ti toi mi moi ai aoi g fresh : Nat)
    (elems : List AnfNode) (m1 m2 x p z : AnfNode) (arRest : List AnfNode)
    (fgm fgt fgn : Option Nat)
    (hlen : 2 < elems.length)
    (hm1 : triggersReduceMatch m1 = false) (hm2 : triggersReduceMatch m2 = false)
    (hp : isPrimitiveCNode .AllReduce p = false)
    (hz : triggersReduceMatch z = false) :
    AdjustAllReduceMulAdd mgr
      (mkAddN1 ni noi (.cnode ti (.vnode toi (.prim .MakeTuple) :: elems) fgt) fgn) fresh
      = ⟨none, []⟩ ∧
    AdjustAllReduceMulAdd mgr
      (mkAddN1 ni noi (mkBin .MakeTuple toi ti m1 m2 fgt) fgn) fresh = ⟨none, []⟩ ∧
    (AdjustAllReduceMulAdd mgr
      (mkAddN1 ni noi
        (mkBin .MakeTuple toi ti (mkBin .Mul moi mi p (mkAllReduce ai aoi x arRest g) fgm) z fgt)
        fgn) fresh).repl =
      some (.cnode (fresh+4) [.vnode moi (.prim .Mul),
        .cnode (fresh+3) [.vnode aoi (.prim .AllReduce),
          .cnode (fresh+2) [.vnode noi (.prim .AddN),
            .cnode (fresh+1) [.vnode toi (.prim .MakeTuple), rehome z g fresh, x] (some g)]
            (some g)] (some g),
        p] (some g)) := by
  refine ⟨?_, ?_, ?_⟩
  · apply adjust_reject
    left
    rw [adjustMatch_addn,
      matchMakeTupleVisit_badlen resetState ti toi elems fgt (Nat.ne_of_gt hlen)]
    rfl
  · apply adjust_reject
    left
    have v1 := Visit_level0_nontrigger resetState m1 rfl hm1
    have v2 := Visit_level0_nontrigger (Visit resetState m1) m2 v1.2.2.2.1 hm2
    rw [adjustMatch_addn, matchMakeTupleVisit_bin, v2.2.1, v1.2.1]
    rfl
  · rw [adjust_accept2 mgr ni noi ti toi mi moi ai aoi g fresh x p z arRest fgm fgt fgn hp hz]

/-- Witness for the amended C2 at concrete graphs: a three-element tuple
and a tuple of two parameters are refused; the flipped multiply
rewrites. -/
theorem claim_C2_amended_witness :
    AdjustAllReduceMulAdd []
      (mkAddN1 10 11 (.cnode 8 (.vnode 9 (.prim .MakeTuple) ::
        [.param 1, .param 2, .param 3]) (some 0)) (some 0)) 100 = ⟨none, []⟩ ∧
    AdjustAllReduceMulAdd []
      (mkAddN1 10 11 (mkBin .MakeTuple 9 8 (.param 20) (.param 21) (some 0)) (some 0)) 100
      = ⟨none, []⟩ ∧
    (AdjustAllReduceMulAdd []
      (mkAddN1 10 11
        (mkBin .MakeTuple 9 8
          (mkBin .Mul 6 5 (.param 1) (mkAllReduce 2 3 (.param 4) [] 0) (some 0))
          (.param 7) (some 0)) (some 0)) 100).repl =
      some (.cnode 104 [.vnode 6 (.prim .Mul),
        .cnode 103 [.vnode 3 (.prim .AllReduce),
          .cnode 102 [.vnode 11 (.prim .AddN),
            .cnode 101 [.vnode 9 (.prim .MakeTuple), rehome (.param 7) 0 100, .param 4] (some 0)]
            (some 0)] (some 0),
        .param 1] (some 0)) :=
  claim_C2_amended [] 10 11 8 9 5 6 2 3 0 100
    [.param 1, .param 2, .param 3] (.param 20) (.param 21) (.param 4) (.param 1) (.param 7) []
    (some 0) (some 0) (some 0) (by decide) rfl rfl rfl rfl

/-- C4: on the accepted rewrite, the `SetEdge` requests are exactly the
recorded users of the original multiply that are `MakeTuple` calls other
than the matched `MakeTuple` (compared by node identity), each re-pointed
at its recorded operand position to the newly built `AllReduce` node;
consumers that are not `MakeTuple` calls, and the matched `MakeTuple`
itself, receive no edge replacement. -/
theorem claim_C4 (mgr : Manager) (ni noi ti toi mi moi ai aoi g fresh i : Nat)
    (x y z c nn : AnfNode) (us : List (AnfNode × Nat))
    (arRest : List AnfNode) (fgm fgt fgn : Option Nat)
    (hy : isPrimitiveCNode .AllReduce y = false)
    (hz : triggersReduceMatch z = false)
    (hus : mgrUsers mgr mi = some us) :
    ((c, i, nn) ∈ (AdjustAllReduceMulAdd mgr
        (mkAddN1 ni noi
          (mkBin .MakeTuple toi ti (mkBin .Mul moi mi (mkAllReduce ai aoi x arRest g) y fgm) z fgt)
          fgn) fresh).edges ↔
      ((c, i) ∈ us ∧ c.nid ≠ ti ∧ isPrimitiveCNode .MakeTuple c = true ∧
        nn = .cnode (fresh+3) [.vnode aoi (.prim .AllReduce),
          .cnode (fresh+2) [.vnode noi (.prim .AddN),
            .cnode (fresh+1) [.vnode toi (.prim .MakeTuple), rehome z g fresh, x] (some g)]
            (some g)] (some g))) := by
  rw [adjust_accept mgr ni noi ti toi mi moi ai aoi g fresh x y z arRest fgm fgt fgn hy hz]
  exact mem_ProcessDependEdge mgr
    (mkBin .Mul moi mi (mkAllReduce ai aoi x arRest g) y fgm)
    (mkBin .MakeTuple toi ti (mkBin .Mul moi mi (mkAllReduce ai aoi x arRest g) y fgm) z fgt)
    (.cnode (fresh+3) [.vnode aoi (.prim .AllReduce),
      .cnode (fresh+2) [.vnode noi (.prim .AddN),
        .cnode (fresh+1) [.vnode toi (.prim .MakeTuple), rehome z g fresh, x] (some g)]
        (some g)] (some g))
    us hus c i nn

/-- Witness for C4: a second `MakeTuple` consumer of the multiply
(node 20) is re-pointed to the new `AllReduce` node, while the matched
`MakeTuple` (node 8) and a non-`MakeTuple` consumer (node 30) are not. -/
theorem claim_C4_witness :
    (AnfNode.cnode 20 [.vnode 21 (.prim .MakeTuple), .param 99] (some 0), 1,
      AnfNode.cnode 103 [.vnode 3 (.prim .AllReduce),
        .cnode 102 [.vnode 11 (.prim .AddN),
          .cnode 101 [.vnode 9 (.prim .MakeTuple), rehome (.param 7) 0 100, .param 4] (some 0)]
          (some 0)] (some 0)) ∈
      (AdjustAllReduceMulAdd
        [(5, [(mkBin .MakeTuple 9 8
                (mkBin .Mul 6 5 (mkAllReduce 2 3 (.param 4) [] 0) (.param 1) (some 0))
                (.param 7) (some 0), 1),
              (.cnode 20 [.vnode 21 (.prim .MakeTuple), .param 99] (some 0), 1),
              (.param 30, 2)])]
        (mkAddN1 10 11
          (mkBin .MakeTuple 9 8
            (mkBin .Mul 6 5 (mkAllReduce 2 3 (.param 4) [] 0) (.param 1) (some 0))
            (.param 7) (some 0)) (some 0)) 100).edges :=
  (claim_C4
    [(5, [(mkBin .MakeTuple 9 8
            (mkBin .Mul 6 5 (mkAllReduce 2 3 (.param 4) [] 0) (.param 1) (some 0))
            (.param 7) (some 0), 1),
          (.cnode 20 [.vnode 21 (.prim .MakeTuple), .param 99] (some 0), 1),
          (.param 30, 2)])]
    10 11 8 9 5 6 2 3 0 100 1 (.param 4) (.param 1) (.param 7)
    (.cnode 20 [.vnode 21 (.prim .MakeTuple), .param 99] (some 0))
    (.cnode 103 [.vnode 3 (.prim .AllReduce),
      .cnode 102 [.vnode 11 (.prim .AddN),
        .cnode 101 [.vnode 9 (.prim .MakeTuple), rehome (.param 7) 0 100, .param 4] (some 0)]
        (some 0)] (some 0))
    [(mkBin .MakeTuple 9 8
        (mkBin .Mul 6 5 (mkAllReduce 2 3 (.param 4) [] 0) (.param 1) (some 0))
        (.param 7) (some 0), 1),
      (.cnode 20 [.vnode 21 (.prim .MakeTuple), .param 99] (some 0), 1),
      (.param 30, 2)]
    [] (some 0) (some 0) (some 0) rfl rfl rfl).mpr
    ⟨List.mem_cons_of_mem _ (List.mem_cons_self _ _), by decide, rfl, rfl⟩

/-- C5: if any of the bindings `x`, `y`, `z`, or the `AllReduce`'s owning
sub-graph is left unbound after the matching phase, the pass returns
nothing and performs no graph mutation: no replacement node and no edge
replacement (in this model the pass's only outputs are the returned
replacement and the requested `SetEdge` list, so `⟨none, []⟩` is the
no-mutation outcome). -/
theorem claim_C5 (mgr : Manager) (node : AnfNode) (fresh : Nat)
    (h : (adjustMatch node).x = none ∨ (adjustMatch node).y = none ∨
         (adjustMatch node).z = none ∨ (adjustMatch node).all_reduce_fg = none) :
    AdjustAllReduceMulAdd mgr node fresh = ⟨none, []⟩ :=
  adjust_reject mgr node fresh h

/-- Witness for C5: a bare parameter binds nothing and is refused. -/
theorem claim_C5_witness :
    (adjustMatch (.param 0)).x = none ∧
    AdjustAllReduceMulAdd [] (.param 0) 0 = ⟨none, []⟩ :=
  ⟨rfl, claim_C5 [] (.param 0) 0 (Or.inl rfl)⟩

/-- C10: if both elements of the matched binary `MakeTuple` match the
reduce-mul shape, `z` is never bound during the visit (the second match
overwrites the multiply bindings instead: `mul_cnode` ends at the second
element), so the pass returns nothing and requests nothing. -/
theorem claim_C10 (mgr : Manager) (ni noi ti toi fresh : Nat) (m1 m2 : AnfNode)
    (fgt fgn : Option Nat)
    (h1 : triggersReduceMatch m1 = true) (h2 : triggersReduceMatch m2 = true) :
    (adjustMatch (mkAddN1 ni noi (mkBin .MakeTuple toi ti m1 m2 fgt) fgn)).z = none ∧
    (adjustMatch (mkAddN1 ni noi (mkBin .MakeTuple toi ti m1 m2 fgt) fgn)).mul_cnode = some m2 ∧
    AdjustAllReduceMulAdd mgr (mkAddN1 ni noi (mkBin .MakeTuple toi ti m1 m2 fgt) fgn) fresh
      = ⟨none, []⟩ := by
  have v1 := Visit_level0_trigger resetState m1 rfl h1
  have v2 := Visit_level0_trigger (Visit resetState m1) m2 v1.2.2 h2
  have hz : (adjustMatch (mkAddN1 ni noi (mkBin .MakeTuple toi ti m1 m2 fgt) fgn)).z = none := by
    rw [adjustMatch_addn, matchMakeTupleVisit_bin, v2.1, v1.1]
    rfl
  refine ⟨hz, ?_, adjust_reject mgr _ fresh (Or.inr (Or.inr (Or.inl hz)))⟩
  rw [adjustMatch_addn, matchMakeTupleVisit_bin, v2.2.1]

/-- Witness for C10: both tuple elements are reduce-mul multiplies; the
pass refuses. -/
theorem claim_C10_witness :
    triggersReduceMatch
      (mkBin .Mul 6 5 (mkAllReduce 2 3 (.param 4) [] 0) (.param 1) (some 0)) = true ∧
    AdjustAllReduceMulAdd []
      (mkAddN1 10 11
        (mkBin .MakeTuple 9 8
          (mkBin .Mul 6 5 (mkAllReduce 2 3 (.param 4) [] 0) (.param 1) (some 0))
          (mkBin .Mul 16 15 (mkAllReduce 12 13 (.param 14) [] 0) (.param 17) (some 0))
          (some 0)) (some 0)) 100 = ⟨none, []⟩ :=
  ⟨rfl,
    (claim_C10 [] 10 11 8 9 100
      (mkBin .Mul 6 5 (mkAllReduce 2 3 (.param 4) [] 0) (.param 1) (some 0))
      (mkBin .Mul 16 15 (mkAllReduce 12 13 (.param 14) [] 0) (.param 17) (some 0))
      (some 0) (some 0) rfl rfl).2.2⟩

/-- C3 counterexample: the detached-node guard (line 57) sits after the
nested-constant-multiply rule (line 55), so on the detached candidate
`2 * (3 * p6)` sweep 1 does NOT return nothing — it fires and builds new
call nodes, contradicting the claim that every node-building rule refuses
on a detached candidate. -/
theorem claim_C3_counterexample : ArithmeticSimplify cexDetachedConstDup 100 ≠ none := by
  rw [show ArithmeticSimplify cexDetachedConstDup 100 =
      some (.cnode 101 [.vnode 0 (.prim .Mul), .param 6, .vnode 100 (.lit ⟨6, false, []⟩)] none)
      from rfl]
  exact fun h => Option.noConfusion h

/-- C3 amended: on a detached candidate the guard of line 57 only
protects the rules after it: the nested-constant-multiply rule still
fires (building its new calls with an absent owning sub-graph), while
the Momentum and pow rules are never tried — the pass returns nothing
before reaching them; on an attached candidate both of those rules
fire. -/
theorem claim_C3_amended (oi ci oj cj k zi zoi fresh gg : Nat)
    (c1 c2 ls : Lit) (x y z gnode : AnfNode) (rest : List AnfNode)
    (hs : ls.val = 1) (hss : ls.isScalar = true) :
    (ArithmeticSimplify (mkBin .Mul oi ci (.vnode k (.lit c1))
        (mkBin .Mul oj cj (.vnode (k+1) (.lit c2)) x none) none) fresh).isSome = true ∧
    ArithmeticSimplify (.cnode ci (.vnode oi (.prim .Momentum) ::
        .cnode zi [.vnode zoi (.prim .ZerosLike), gnode] none :: y :: z :: rest) none) fresh
      = none ∧
    ArithmeticSimplify (.cnode ci (.vnode oi (.prim .Momentum) ::
        .cnode zi [.vnode zoi (.prim .ZerosLike), gnode] none :: y :: z :: rest) (some gg)) fresh
      = some (.cnode (fresh+1) [.vnode fresh (.prim .MakeTuple), z, y] (some gg)) ∧
    ArithmeticSimplify (mkBin .Pow oi ci x (.vnode k (.lit ls)) none) fresh = none ∧
    ArithmeticSimplify (mkBin .Pow oi ci x (.vnode k (.lit ls)) (some gg)) fresh = some x := by
  refine ⟨?_, ?_, ?_, ?_, ?_⟩
  · rw [constdup_eval]
    rcases hf : foldMul c1 c2 with _ | l <;> simp [hf]
  · simp [ArithmeticSimplify, pick, ruleAddZero, ruleAddZeroScalar, ruleScalarAddZeroL,
      ruleScalarAddZeroR, ruleMulOne, ruleScalarMulOneL, ruleScalarMulOneR,
      ruleScalarMulZeroL, ruleScalarMulZeroR, ruleIdentity, ruleConstDup, ruleMomentum,
      rulePowOne, mkBin, isPrimNode, AnfNode.litOf, AnfNode.fgOf]
  · simp [ArithmeticSimplify, pick, ruleAddZero, ruleAddZeroScalar, ruleScalarAddZeroL,
      ruleScalarAddZeroR, ruleMulOne, ruleScalarMulOneL, ruleScalarMulOneR,
      ruleScalarMulZeroL, ruleScalarMulZeroR, ruleIdentity, ruleConstDup, ruleMomentum,
      rulePowOne, mkBin, isPrimNode, AnfNode.litOf, AnfNode.fgOf]
  · simp [ArithmeticSimplify, pick, ruleAddZero, ruleAddZeroScalar, ruleScalarAddZeroL,
      ruleScalarAddZeroR, ruleMulOne, ruleScalarMulOneL, ruleScalarMulOneR,
      ruleScalarMulZeroL, ruleScalarMulZeroR, ruleIdentity, ruleConstDup, ruleMomentum,
      rulePowOne, mkBin, isPrimNode, isConstVal_vnode, isScalarConstVal_vnode,
      AnfNode.litOf, AnfNode.fgOf, hs, hss]
  · simp [ArithmeticSimplify, pick, ruleAddZero, ruleAddZeroScalar, ruleScalarAddZeroL,
      ruleScalarAddZeroR, ruleMulOne, ruleScalarMulOneL, ruleScalarMulOneR,
      ruleScalarMulZeroL, ruleScalarMulZeroR, ruleIdentity, ruleConstDup, ruleMomentum,
      rulePowOne, mkBin, isPrimNode, isConstVal_vnode, isScalarConstVal_vnode,
      AnfNode.litOf, AnfNode.fgOf, hs, hss]

/-- Witness for the amended C3: a concrete detached `pow(p50, 1)` is
refused while its attached twin simplifies to `p50`. -/
theorem claim_C3_amended_witness :
    ArithmeticSimplify (mkBin .Pow 0 5 (.param 50) (.vnode 1 (.lit ⟨1, true, []⟩)) none) 100
      = none ∧
    ArithmeticSimplify (mkBin .Pow 0 5 (.param 50) (.vnode 1 (.lit ⟨1, true, []⟩)) (some 7)) 100
      = some (.param 50) :=
  ⟨(claim_C3_amended 0 5 2 4 1 60 61 100 7 ⟨2, false, []⟩ ⟨3, false, []⟩ ⟨1, true, []⟩
      (.param 50) (.param 51) (.param 52) (.param 53) [] rfl rfl).2.2.2.1,
    (claim_C3_amended 0 5 2 4 1 60 61 100 7 ⟨2, false, []⟩ ⟨3, false, []⟩ ⟨1, true, []⟩
      (.param 50) (.param 51) (.param 52) (.param 53) [] rfl rfl).2.2.2.2⟩

/-- C6: on `c1 * (c2 * x)` sweep 1 fires the builder rule: if the literal
fold of `c1` and `c2` is representable the result is `x * (c1·c2)` with
the folded constant as a fresh value node; if the fold fails the result
is `x * (c1 * c2)` with a freshly synthesized multiply call over the two
original constant nodes. In both outcomes every constructed call reuses,
by identity, the original outer multiply's operator node
(`.vnode oi (.prim .Mul)`, input 0 of the candidate). -/
theorem claim_C6 (oi ci oj cj a b fresh : Nat) (c1 c2 : Lit) (x : AnfNode)
    (fg fgi : Option Nat) :
    (∀ l, foldMul c1 c2 = some l →
      ArithmeticSimplify (mkBin .Mul oi ci (.vnode a (.lit c1))
        (mkBin .Mul oj cj (.vnode b (.lit c2)) x fgi) fg) fresh =
        some (.cnode (fresh+1) [.vnode oi (.prim .Mul), x, .vnode fresh (.lit l)] fg)) ∧
    (foldMul c1 c2 = none →
      ArithmeticSimplify (mkBin .Mul oi ci (.vnode a (.lit c1))
        (mkBin .Mul oj cj (.vnode b (.lit c2)) x fgi) fg) fresh =
        some (.cnode (fresh+1) [.vnode oi (.prim .Mul), x,
          .cnode fresh [.vnode oi (.prim .Mul), .vnode a (.lit c1), .vnode b (.lit c2)] fg] fg)) := by
  constructor
  · intro l hl
    rw [constdup_eval, hl]
  · intro hn
    rw [constdup_eval, hn]

/-- Witness for C6: `2 * (3 * p6)` folds to `p6 * 6`; with a
shape-mismatched `3` the fold fails and `p6 * (2 * 3)` is synthesized. -/
theorem claim_C6_witness :
    ArithmeticSimplify (mkBin .Mul 0 5 (.vnode 1 (.lit ⟨2, false, []⟩))
      (mkBin .Mul 2 4 (.vnode 3 (.lit ⟨3, false, []⟩)) (.param 6) (some 0)) (some 0)) 100 =
      some (.cnode 101 [.vnode 0 (.prim .Mul), .param 6, .vnode 100 (.lit ⟨6, false, []⟩)] (some 0)) ∧
    ArithmeticSimplify (mkBin .Mul 0 5 (.vnode 1 (.lit ⟨2, false, []⟩))
      (mkBin .Mul 2 4 (.vnode 3 (.lit ⟨3, false, [7]⟩)) (.param 6) (some 0)) (some 0)) 100 =
      some (.cnode 101 [.vnode 0 (.prim .Mul), .param 6,
        .cnode 100 [.vnode 0 (.prim .Mul), .vnode 1 (.lit ⟨2, false, []⟩),
          .vnode 3 (.lit ⟨3, false, [7]⟩)] (some 0)] (some 0)) :=
  ⟨(claim_C6 0 5 2 4 1 3 100 ⟨2, false, []⟩ ⟨3, false, []⟩ (.param 6) (some 0) (some 0)).1
      ⟨6, false, []⟩ rfl,
    (claim_C6 0 5 2 4 1 3 100 ⟨2, false, []⟩ ⟨3, false, [7]⟩ (.param 6) (some 0) (some 0)).2 rfl⟩

/-- C7 counterexample: the generic tensor-add pattern only matches the
zero in second operand position, so `0 + p2` is NOT rewritten to `p2` —
sweep 1 returns nothing on it, contradicting the claim for the order
`0 + x`. -/
theorem claim_C7_counterexample :
    ArithmeticSimplify cexZeroPlusX 100 = none ∧
    ArithmeticSimplify cexZeroPlusX 100 ≠ some (.param 2) := by
  constructor
  · rfl
  · rw [show ArithmeticSimplify cexZeroPlusX 100 = none from rfl]
    exact fun h => Option.noConfusion h

/-- C7 amended: sweep 1 rewrites `x + 0` (zero on the right, any zero
literal, scalar-typed included), `ScalarAdd(0, x)` for every `x`, and
`ScalarAdd(x, 0)` whenever `x` is not itself a scalar zero literal, all
to the very same node `x`; the generic form with the zero on the left
does not fire (for instance on any parameter right operand). -/
theorem claim_C7_amended (x : AnfNode) (oi ci k q fresh : Nat) (l ls : Lit) (fg : Option Nat)
    (hl : l.val = 0) (hs : ls.val = 0) (hss : ls.isScalar = true)
    (hx : isScalarConstVal 0 x = false) :
    ArithmeticSimplify (mkBin .TensorAdd oi ci x (.vnode k (.lit l)) fg) fresh = some x ∧
    ArithmeticSimplify (mkBin .ScalarAdd oi ci (.vnode k (.lit ls)) x fg) fresh = some x ∧
    ArithmeticSimplify (mkBin .ScalarAdd oi ci x (.vnode k (.lit ls)) fg) fresh = some x ∧
    ArithmeticSimplify (mkBin .TensorAdd oi ci (.vnode k (.lit l)) (.param q) fg) fresh = none := by
  refine ⟨?_, ?_, ?_, ?_⟩ <;>
    simp [ArithmeticSimplify, pick, ruleAddZero, ruleAddZeroScalar, ruleScalarAddZeroL,
      ruleScalarAddZeroR, ruleMulOne, ruleScalarMulOneL, ruleScalarMulOneR,
      ruleScalarMulZeroL, ruleScalarMulZeroR, ruleIdentity, ruleConstDup, ruleMomentum,
      rulePowOne, mkBin, isPrimNode, isConstVal_vnode, isScalarConstVal_vnode,
      isConstVal_param, isScalarConstVal_param, AnfNode.litOf, AnfNode.fgOf,
      hl, hs, hss, hx]

/-- Witness for the amended C7: `p30 + 0` rewrites to the very node
`p30`. -/
theorem claim_C7_amended_witness :
    ArithmeticSimplify (mkBin .TensorAdd 0 3 (.param 30) (.vnode 1 (.lit ⟨0, false, []⟩))
      (some 0)) 100 = some (.param 30) :=
  (claim_C7_amended (.param 30) 0 3 1 2 100 ⟨0, false, []⟩ ⟨0, true, []⟩ (some 0)
    rfl rfl rfl rfl).1

/-- C8 counterexample: on `scalar_mul(0, 1)` the earlier mul-by-one rule
(line 38) fires before the mul-by-zero rule and returns the matched zero
operand node itself — not a freshly stamped zero value node —
contradicting the claim for `x` being the scalar literal one. -/
theorem claim_C8_counterexample :
    ArithmeticSimplify cexScalarMulZeroOne 100 = some (.vnode 1 (.lit ⟨0, true, []⟩)) ∧
    ArithmeticSimplify cexScalarMulZeroOne 100 ≠ some (newZeroValue 100) := by
  constructor
  · rfl
  · rw [show ArithmeticSimplify cexScalarMulZeroOne 100
        = some (.vnode 1 (.lit ⟨0, true, []⟩)) from rfl]
    intro h
    have := congrArg (fun o => (o.getD (.param 0)).nid) h
    simp [newZeroValue, AnfNode.nid] at this

/-- C8 amended: for every `x` that is not the scalar literal one, both
`scalar_mul(0, x)` and `scalar_mul(x, 0)` rewrite to the freshly stamped
zero value node (identity `fresh`, distinct from the matched zero
operand); when `x` is the scalar literal one, the earlier
scalar-mul-by-one rule fires first and returns the matched zero operand
node itself. -/
theorem claim_C8_amended (x : AnfNode) (oi ci k fresh : Nat) (zl : Lit) (fg : Option Nat)
    (hz : zl.val = 0) (hzs : zl.isScalar = true)
    (hx1 : isScalarConstVal 1 x = false) :
    ArithmeticSimplify (mkBin .ScalarMul oi ci (.vnode k (.lit zl)) x fg) fresh
      = some (newZeroValue fresh) ∧
    ArithmeticSimplify (mkBin .ScalarMul oi ci x (.vnode k (.lit zl)) fg) fresh
      = some (newZeroValue fresh) ∧
    (fresh ≠ k → newZeroValue fresh ≠ .vnode k (.lit zl)) ∧
    (∀ ol : Lit, ol.val = 1 → ol.isScalar = true →
      ArithmeticSimplify (mkBin .ScalarMul oi ci (.vnode k (.lit zl))
        (.vnode (k+1) (.lit ol)) fg) fresh = some (.vnode k (.lit zl))) := by
  refine ⟨?_, ?_, ?_, ?_⟩
  · simp [ArithmeticSimplify, pick, ruleAddZero, ruleAddZeroScalar, ruleScalarAddZeroL,
      ruleScalarAddZeroR, ruleMulOne, ruleScalarMulOneL, ruleScalarMulOneR,
      ruleScalarMulZeroL, ruleScalarMulZeroR, mkBin, isPrimNode, isConstVal_vnode,
      isScalarConstVal_vnode, AnfNode.litOf, hz, hzs, hx1]
  · by_cases h0 : isScalarConstVal 0 x = true
    · simp [ArithmeticSimplify, pick, ruleAddZero, ruleAddZeroScalar, ruleScalarAddZeroL,
        ruleScalarAddZeroR, ruleMulOne, ruleScalarMulOneL, ruleScalarMulOneR,
        ruleScalarMulZeroL, ruleScalarMulZeroR, mkBin, isPrimNode, isConstVal_vnode,
        isScalarConstVal_vnode, AnfNode.litOf, hz, hzs, hx1, h0]
    · have h0f : isScalarConstVal 0 x = false := Bool.eq_false_iff.mpr h0
      simp [ArithmeticSimplify, pick, ruleAddZero, ruleAddZeroScalar, ruleScalarAddZeroL,
        ruleScalarAddZeroR, ruleMulOne, ruleScalarMulOneL, ruleScalarMulOneR,
        ruleScalarMulZeroL, ruleScalarMulZeroR, mkBin, isPrimNode, isConstVal_vnode,
        isScalarConstVal_vnode, AnfNode.litOf, hz, hzs, hx1, h0f]
  · intro hne heq
    exact hne (congrArg AnfNode.nid heq)
  · intro ol ho hos
    simp [ArithmeticSimplify, pick, ruleAddZero, ruleAddZeroScalar, ruleScalarAddZeroL,
      ruleScalarAddZeroR, ruleMulOne, ruleScalarMulOneL, ruleScalarMulOneR, mkBin,
      isPrimNode, isConstVal_vnode, isScalarConstVal_vnode, AnfNode.litOf, hz, hzs, ho, hos]

/-- Witness for the amended C8: `scalar_mul(0, p30)` yields the fresh
zero node stamped with identity 100. -/
theorem claim_C8_amended_witness :
    ArithmeticSimplify (mkBin .ScalarMul 0 10 (.vnode 1 (.lit ⟨0, true, []⟩)) (.param 30)
      (some 0)) 100 = some (newZeroValue 100) :=
  (claim_C8_amended (.param 30) 0 10 1 100 ⟨0, true, []⟩ (some 0) rfl rfl rfl).1

/-- C9: `x * 1` (generic tensor multiply, literal one on the right)
rewrites to `x` exactly when the retained side is a value node, and is
not rewritten at all otherwise; the scalar-multiply primitive form fires
for both operand orders without the value-node guard — returning `x`
itself, except that when `x` is a scalar literal one the mirrored rule
fires first and returns the other (equal-valued) one node. -/
theorem claim_C9 (x : AnfNode) (oi ci k fresh : Nat) (ol sl : Lit) (fg : Option Nat)
    (ho : ol.val = 1) (hs : sl.val = 1) (hss : sl.isScalar = true) :
    (x.isVNode = true →
      ArithmeticSimplify (mkBin .Mul oi ci x (.vnode k (.lit ol)) fg) fresh = some x) ∧
    (x.isVNode = false →
      ArithmeticSimplify (mkBin .Mul oi ci x (.vnode k (.lit ol)) fg) fresh = none) ∧
    ArithmeticSimplify (mkBin .ScalarMul oi ci (.vnode k (.lit sl)) x fg) fresh = some x ∧
    (isScalarConstVal 1 x = false →
      ArithmeticSimplify (mkBin .ScalarMul oi ci x (.vnode k (.lit sl)) fg) fresh = some x) ∧
    (isScalarConstVal 1 x = true →
      ArithmeticSimplify (mkBin .ScalarMul oi ci x (.vnode k (.lit sl)) fg) fresh
        = some (.vnode k (.lit sl))) := by
  refine ⟨?_, ?_, ?_, ?_, ?_⟩
  · intro hv
    simp [ArithmeticSimplify, pick, ruleAddZero, ruleAddZeroScalar, ruleScalarAddZeroL,
      ruleScalarAddZeroR, ruleMulOne, mkBin, isPrimNode, isConstVal_vnode,
      isScalarConstVal_vnode, AnfNode.litOf, ho, hv]
  · intro hv
    simp [ArithmeticSimplify, pick, ruleAddZero, ruleAddZeroScalar, ruleScalarAddZeroL,
      ruleScalarAddZeroR, ruleMulOne, ruleScalarMulOneL, ruleScalarMulOneR,
      ruleScalarMulZeroL, ruleScalarMulZeroR, ruleIdentity, ruleConstDup, ruleMomentum,
      rulePowOne, mkBin, isPrimNode, isConstVal_vnode, isScalarConstVal_vnode,
      AnfNode.litOf, AnfNode.fgOf, ho, hv]
  · simp [ArithmeticSimplify, pick, ruleAddZero, ruleAddZeroScalar, ruleScalarAddZeroL,
      ruleScalarAddZeroR, ruleMulOne, ruleScalarMulOneL, mkBin, isPrimNode,
      isConstVal_vnode, isScalarConstVal_vnode, AnfNode.litOf, hs, hss]
  · intro hx1
    simp [ArithmeticSimplify, pick, ruleAddZero, ruleAddZeroScalar, ruleScalarAddZeroL,
      ruleScalarAddZeroR, ruleMulOne, ruleScalarMulOneL, ruleScalarMulOneR, mkBin,
      isPrimNode, isConstVal_vnode, isScalarConstVal_vnode, AnfNode.litOf, hs, hss, hx1]
  · intro hx1
    simp [ArithmeticSimplify, pick, ruleAddZero, ruleAddZeroScalar, ruleScalarAddZeroL,
      ruleScalarAddZeroR, ruleMulOne, ruleScalarMulOneL, mkBin, isPrimNode,
      isConstVal_vnode, isScalarConstVal_vnode, AnfNode.litOf, hs, hss, hx1]

/-- Witness for C9: the constant-bearing `5 * 1` rewrites to the very
value node carrying 5. -/
theorem claim_C9_witness :
    ArithmeticSimplify (mkBin .Mul 0 10 (.vnode 7 (.lit ⟨5, false, []⟩))
      (.vnode 2 (.lit ⟨1, false, []⟩)) (some 0)) 100 = some (.vnode 7 (.lit ⟨5, false, []⟩)) :=
  (claim_C9 (.vnode 7 (.lit ⟨5, false, []⟩)) 0 10 2 100 ⟨1, false, []⟩ ⟨1, true, []⟩ (some 0)
    rfl rfl rfl).1 rfl

end MindSporeSimplify
